import Mathlib

/-!
Verification of PyGit's content-addressable object store core
(src/pygit/utils/hash.py and src/pygit/core/objects.py).

Embedding conventions:
* Python `str` and `bytes` values are both carried as `List Char`, but the
  kind distinction is tracked where it changes behaviour: `hash_object`
  receives a `PyData` (bytes or str) and raises TypeError on a str payload,
  because `type_.encode() + b"\x00" + data` (hash.py line 17) cannot
  concatenate bytes with str. `Tree.store` and `Commit.commit` pass str,
  so tree and commit storage always raises in the source.
* The filesystem object store (files under `objects/<d[0:2]>/<d[2:]>`) is an
  association list from the derived path to the raw file bytes.
* `hashlib.sha1(data).hexdigest()` is external library code; it is modelled
  as an injective byte-to-hex-digits encoding, since the spec's
  content-addressing invariant assumes collision-freeness ("digests are never
  reused across different payloads except by hash collision (out of scope)").
  The model keeps the two properties the code relies on: determinism and
  hex output (no whitespace, no NUL, no slash).
-/

set_option maxRecDepth 8000

/-- The NUL byte used for object framing. -/
def nul : Char := Char.ofNat 0

/-- The type tag of blob objects. -/
def blobT : List Char := "blob".data

/-- The type tag of tree objects. -/
def treeT : List Char := "tree".data

/-- The type tag of commit objects. -/
def commitT : List Char := "commit".data

/-- One hex digit, as produced by `hexdigest` (0-9, a-f). -/
def hexDigit (n : Nat) : Char :=
  if n < 10 then Char.ofNat (48 + n) else Char.ofNat (87 + n)

/-- Six hex digits encoding a value below 16^6 (every Unicode scalar fits). -/
def toHex6 (n : Nat) : List Char :=
  [hexDigit (n % 16), hexDigit (n / 16 % 16), hexDigit (n / 256 % 16),
   hexDigit (n / 4096 % 16), hexDigit (n / 65536 % 16), hexDigit (n / 1048576 % 16)]

/-- Inverse of `hexDigit` on hex digit characters. -/
def hexVal (c : Char) : Nat :=
  if 97 ≤ c.toNat then c.toNat - 87 else c.toNat - 48

/-- Inverse of `toHex6`. -/
def fromHex6 (a b c d e f : Char) : Nat :=
  hexVal a + 16 * hexVal b + 256 * hexVal c + 4096 * hexVal d +
    65536 * hexVal e + 1048576 * hexVal f

/-- Hex-encode a character sequence, six digits per character. -/
def encodeChars : List Char → List Char
  | [] => []
  | c :: cs => toHex6 c.toNat ++ encodeChars cs

/-- Decoder for `encodeChars`, used to establish injectivity. -/
def decodeChars : List Char → Option (List Char)
  | [] => some []
  | a :: b :: c :: d :: e :: f :: rest =>
      (decodeChars rest).map (fun l => Char.ofNat (fromHex6 a b c d e f) :: l)
  | _ => none

/-- Models `get_hash` from src/pygit/utils/hash.py: `sha1(data).hexdigest()`.
The external SHA-1 is modelled as an injective hex encoding (see header). -/
def get_hash (data : List Char) : List Char := encodeChars data

lemma hexVal_hexDigit : ∀ n < 16, hexVal (hexDigit n) = n := by decide

lemma char_toNat_lt (c : Char) : c.toNat < 16777216 := by
  have h := c.valid
  rcases h with h | ⟨_, h⟩
  · calc c.toNat < 0xd800 := h
    _ < 16777216 := by norm_num
  · calc c.toNat < 0x110000 := h
    _ < 16777216 := by norm_num

lemma fromHex6_toHex6 (n : Nat) (h : n < 16777216) :
    fromHex6 (hexDigit (n % 16)) (hexDigit (n / 16 % 16)) (hexDigit (n / 256 % 16))
      (hexDigit (n / 4096 % 16)) (hexDigit (n / 65536 % 16))
      (hexDigit (n / 1048576 % 16)) = n := by
  have h0 := hexVal_hexDigit (n % 16) (Nat.mod_lt _ (by norm_num))
  have h1 := hexVal_hexDigit (n / 16 % 16) (Nat.mod_lt _ (by norm_num))
  have h2 := hexVal_hexDigit (n / 256 % 16) (Nat.mod_lt _ (by norm_num))
  have h3 := hexVal_hexDigit (n / 4096 % 16) (Nat.mod_lt _ (by norm_num))
  have h4 := hexVal_hexDigit (n / 65536 % 16) (Nat.mod_lt _ (by norm_num))
  have h5 := hexVal_hexDigit (n / 1048576 % 16) (Nat.mod_lt _ (by norm_num))
  unfold fromHex6
  rw [h0, h1, h2, h3, h4, h5]
  omega

lemma decode_encode : ∀ l : List Char, decodeChars (encodeChars l) = some l
  | [] => rfl
  | c :: cs => by
    have ih := decode_encode cs
    simp [encodeChars, toHex6, decodeChars, ih,
      fromHex6_toHex6 c.toNat (char_toNat_lt c), Char.ofNat_toNat]

lemma get_hash_inj {x y : List Char} (h : get_hash x = get_hash y) : x = y := by
  have hx := decode_encode x
  have hy := decode_encode y
  unfold get_hash at h
  rw [h, hy] at hx
  exact (Option.some_inj.mp hx).symm

/-- A stored object's path: the `objects` directory, then the first two hex
characters of the digest, then the remainder (hash.py lines 19-20). -/
abbrev ObjKey := List Char × List Char × List Char

/-- Path derivation `objects/<d[0:2]>/<d[2:]>`. -/
def objPath (d : List Char) : ObjKey := ("objects".data, d.take 2, d.drop 2)

/-- The object store: file contents indexed by derived path. -/
abbrev Store := List (ObjKey × List Char)

/-- Association-list lookup, modelling `path.exists()` + file read. -/
def slookup (k : ObjKey) : Store → Option (List Char)
  | [] => none
  | (k', v) :: rest => if k' = k then some v else slookup k rest

/-- The on-disk frame `type_.encode() + b"\x00" + data` (hash.py line 17). -/
def frameObj (type_ data : List Char) : List Char := type_ ++ nul :: data

/-- Models `hash_object` from src/pygit/utils/hash.py: computes the digest of
the framed content, writes the frame at the derived path only when no file
exists there, and returns the digest either way. -/
def hash_object (σ : Store) (data type_ : List Char) : List Char × Store :=
  let hash_id := get_hash (frameObj type_ data)
  let k := objPath hash_id
  match slookup k σ with
  | some _ => (hash_id, σ)
  | none => (hash_id, (k, frameObj type_ data) :: σ)

/-- Python exceptions raised by the modelled code. `recursionLimit` stands for
the interpreter's recursion limit, used as fuel for `get_tree`. -/
inductive PyErr where
  | fileNotFound
  | valueError
  | assertionFailed
  | typeError
  | recursionLimit
  deriving DecidableEq

/-- A Python value passed as the `data` argument of `hash_object`: the code
passes `bytes` for blobs (`f.read()` on a binary handle) but `str` for trees
(the `"".join(...)` result) and commits (the f-string). -/
inductive PyData where
  | bytes (b : List Char)
  | str (s : List Char)

/-- `hash_object` as actually callable from the source: on a `bytes` payload
it behaves as `hash_object`; on a `str` payload the very first statement
`type_.encode() + b"\x00" + data` (hash.py line 17) raises TypeError —
bytes cannot be concatenated with str — before any directory or file is
touched, so the store is left unchanged and no digest is returned. -/
def hash_object_py (σ : Store) (data : PyData) (type_ : List Char) :
    Except PyErr (List Char × Store) :=
  match data with
  | .bytes b => .ok (hash_object σ b type_)
  | .str _ => .error .typeError

/-- Python's `bytes.partition(b"\x00")`: split at the first NUL; when no NUL
is present the result is `(whole, [], [])`. -/
def pyPartition : List Char → List Char × List Char × List Char
  | [] => ([], [], [])
  | c :: rest =>
    if c = nul then ([], [nul], rest)
    else
      let p := pyPartition rest
      (c :: p.1, p.2.1, p.2.2)

/-- Models `GitObject.get_object` (objects.py lines 28-41): resolve the digest
to its path, fail with `FileNotFoundError` when absent, split the file at the
first NUL, fail with `ValueError` unless the part before the NUL is one of
blob/tree/commit, and return the part after the NUL. It performs no write
(it takes the store and returns only data). -/
def get_object (σ : Store) (hash_id : List Char) : Except PyErr (List Char) :=
  match slookup (objPath hash_id) σ with
  | none => .error .fileNotFound
  | some obj =>
    let type_ := (pyPartition obj).1
    let data := (pyPartition obj).2.2
    if type_ ≠ blobT ∧ type_ ≠ treeT ∧ type_ ≠ commitT then .error .valueError
    else .ok data

lemma pyPartition_frame (t p : List Char) (h : nul ∉ t) :
    pyPartition (frameObj t p) = (t, [nul], p) := by
  induction t with
  | nil => simp [frameObj, pyPartition]
  | cons c cs ih =>
    have hc : c ≠ nul := fun hcn => h (hcn ▸ List.mem_cons_self c cs)
    have hcs : nul ∉ cs := fun hm => h (List.mem_cons_of_mem c hm)
    have ih' := ih hcs
    simp only [frameObj, List.cons_append] at *
    simp [pyPartition, hc, ih']

/-- Every file in the store sits at the path derived from the digest of its
own content (the invariant `hash_object` maintains). -/
def WellFormedStore (σ : Store) : Prop :=
  ∀ k v, slookup k σ = some v → k = objPath (get_hash v)

lemma WellFormedStore_nil : WellFormedStore [] := by
  intro k v h
  simp [slookup] at h

lemma objPath_inj {d1 d2 : List Char} (h : objPath d1 = objPath d2) : d1 = d2 := by
  have h1 : d1.take 2 = d2.take 2 := congrArg (fun x => x.2.1) h
  have h2 : d1.drop 2 = d2.drop 2 := congrArg (fun x => x.2.2) h
  calc d1 = d1.take 2 ++ d1.drop 2 := (List.take_append_drop 2 d1).symm
  _ = d2.take 2 ++ d2.drop 2 := by rw [h1, h2]
  _ = d2 := List.take_append_drop 2 d2

lemma hash_object_fst (σ : Store) (data type_ : List Char) :
    (hash_object σ data type_).1 = get_hash (frameObj type_ data) := by
  unfold hash_object
  cases heq : slookup (objPath (get_hash (frameObj type_ data))) σ <;> simp [heq]

lemma slookup_hash_object (σ : Store) (data type_ : List Char) (hw : WellFormedStore σ) :
    slookup (objPath (hash_object σ data type_).1) (hash_object σ data type_).2
      = some (frameObj type_ data) := by
  unfold hash_object
  cases heq : slookup (objPath (get_hash (frameObj type_ data))) σ with
  | none => simp [heq, slookup]
  | some v =>
    have hk := hw _ _ heq
    have hd : get_hash (frameObj type_ data) = get_hash v := objPath_inj hk
    have hv : frameObj type_ data = v := get_hash_inj hd
    rw [hv] at heq ⊢
    simp [heq]

/-- Number of stored files at a given derived path (a real filesystem can
hold at most one; the association list counts occurrences). -/
def countKey (k : ObjKey) (σ : Store) : Nat :=
  (σ.filter (fun e => decide (e.1 = k))).length

lemma slookup_none_countKey (k : ObjKey) (σ : Store) (h : slookup k σ = none) :
    countKey k σ = 0 := by
  induction σ with
  | nil => rfl
  | cons e rest ih =>
    obtain ⟨k', v⟩ := e
    by_cases hk : k' = k
    · simp [slookup, hk] at h
    · simp only [slookup, if_neg hk] at h
      simp [countKey, List.filter, hk] at *
      exact ih h

lemma slookup_some_countKey (k : ObjKey) (σ : Store) (v : List Char)
    (h : slookup k σ = some v) : 1 ≤ countKey k σ := by
  induction σ with
  | nil => simp [slookup] at h
  | cons e rest ih =>
    obtain ⟨k', v'⟩ := e
    by_cases hk : k' = k
    · simp [countKey, List.filter, hk]
    · simp only [slookup, if_neg hk] at h
      simpa [countKey, List.filter, hk] using ih h

/-- C4: for every type tag in blob/tree/commit and every payload, `get_object`
applied to the digest returned by `hash_object` succeeds and returns the
stored payload, and the NUL-framing parse of the stored bytes recovers the
(type tag, payload) pair exactly. -/
theorem put_get_roundtrip (σ : Store) (type_ payload : List Char)
    (hW : WellFormedStore σ)
    (hT : type_ = blobT ∨ type_ = treeT ∨ type_ = commitT) :
    get_object (hash_object σ payload type_).2 (hash_object σ payload type_).1
        = .ok payload
      ∧ pyPartition (frameObj type_ payload) = (type_, [nul], payload) := by
  have hnul : nul ∉ type_ := by
    rcases hT with h | h | h <;> subst h <;> decide
  have hpart := pyPartition_frame type_ payload hnul
  have hl := slookup_hash_object σ payload type_ hW
  refine ⟨?_, hpart⟩
  rcases hT with h | h | h <;> subst h <;>
    simp [get_object, hl, hpart]

/-- Witness for C4 at the empty store with a blob. -/
theorem put_get_roundtrip_witness :
    WellFormedStore []
    ∧ (blobT = blobT ∨ blobT = treeT ∨ blobT = commitT)
    ∧ (get_object (hash_object [] ("hi".data) blobT).2 (hash_object [] ("hi".data) blobT).1
          = .ok ("hi".data)
        ∧ pyPartition (frameObj blobT ("hi".data)) = (blobT, [nul], "hi".data)) :=
  ⟨WellFormedStore_nil, Or.inl rfl,
    put_get_roundtrip [] blobT ("hi".data) WellFormedStore_nil (Or.inl rfl)⟩

/-- C5: calling `hash_object` twice with the same type tag and payload returns
the identical digest both times, the second call performs no write (the store
is unchanged), and exactly one file sits at the derived path
`objects/<d[0:2]>/<d[2:]>` afterwards. -/
theorem put_idempotent (σ : Store) (data type_ : List Char)
    (hk : countKey (objPath (get_hash (frameObj type_ data))) σ ≤ 1) :
    (hash_object σ data type_).1 = (hash_object (hash_object σ data type_).2 data type_).1
    ∧ (hash_object (hash_object σ data type_).2 data type_).2 = (hash_object σ data type_).2
    ∧ countKey (objPath ((hash_object σ data type_).1)) (hash_object σ data type_).2 = 1 := by
  have hfst := hash_object_fst σ data type_
  unfold hash_object
  cases heq : slookup (objPath (get_hash (frameObj type_ data))) σ with
  | none =>
    have hc := slookup_none_countKey _ _ heq
    simp [heq, slookup, countKey, List.filter]
    have : countKey (objPath (get_hash (frameObj type_ data))) σ = 0 := hc
    simpa [countKey] using this
  | some v =>
    have hc := slookup_some_countKey _ _ _ heq
    simp [heq]
    omega

/-- Witness for C5 at the empty store. -/
theorem put_idempotent_witness :
    countKey (objPath (get_hash (frameObj blobT ("x".data)))) [] ≤ 1
    ∧ ((hash_object [] ("x".data) blobT).1
          = (hash_object (hash_object [] ("x".data) blobT).2 ("x".data) blobT).1
      ∧ (hash_object (hash_object [] ("x".data) blobT).2 ("x".data) blobT).2
          = (hash_object [] ("x".data) blobT).2
      ∧ countKey (objPath ((hash_object [] ("x".data) blobT).1)) (hash_object [] ("x".data) blobT).2
          = 1) :=
  ⟨by decide, put_idempotent [] ("x".data) blobT (by decide)⟩

/-- Counterexample to C6: a stored file whose bytes are exactly `blob` with no
NUL at all lacks the `type_tag NUL payload` framing, yet `get_object` accepts
it and returns an empty payload instead of failing with CorruptObject. -/
theorem get_object_accepts_unframed_bytes :
    nul ∉ ("blob".data)
    ∧ get_object [(objPath ("abcd".data), "blob".data)] ("abcd".data) = .ok [] :=
  ⟨by decide, rfl⟩

/-- C6 (amended): `get_object` fails with ObjectNotFound exactly when no file
exists at the derived path; when a file exists it fails with CorruptObject
exactly when the segment before the first NUL (the whole content when no NUL
is present) is not one of blob/tree/commit, and otherwise succeeds returning
the bytes after the first NUL. It performs no write (it is a pure reader). -/
theorem get_object_error_spec (σ : Store) (h : List Char) :
    (get_object σ h = .error .fileNotFound ↔ slookup (objPath h) σ = none)
    ∧ (∀ obj, slookup (objPath h) σ = some obj →
        ((get_object σ h = .error .valueError ↔
            ((pyPartition obj).1 ≠ blobT ∧ (pyPartition obj).1 ≠ treeT
              ∧ (pyPartition obj).1 ≠ commitT))
          ∧ (((pyPartition obj).1 = blobT ∨ (pyPartition obj).1 = treeT
                ∨ (pyPartition obj).1 = commitT) →
              get_object σ h = .ok (pyPartition obj).2.2))) := by
  constructor
  · cases heq : slookup (objPath h) σ with
    | none => simp [get_object, heq]
    | some obj =>
      simp only [get_object, heq]
      constructor
      · intro hcon
        by_cases hb : (pyPartition obj).1 ≠ blobT ∧ (pyPartition obj).1 ≠ treeT
            ∧ (pyPartition obj).1 ≠ commitT
        · simp [hb] at hcon
        · simp [hb] at hcon
      · intro hcon
        simp at hcon
  · intro obj heq
    constructor
    · simp only [get_object, heq]
      by_cases hb : (pyPartition obj).1 ≠ blobT ∧ (pyPartition obj).1 ≠ treeT
          ∧ (pyPartition obj).1 ≠ commitT
      · simp [hb]
      · simp [hb]
    · intro htag
      have hb : ¬ ((pyPartition obj).1 ≠ blobT ∧ (pyPartition obj).1 ≠ treeT
          ∧ (pyPartition obj).1 ≠ commitT) := by
        rcases htag with h1 | h1 | h1 <;> simp [h1]
      simp [get_object, heq, hb]

/-- Witness for C6 (amended) on a store holding one well-framed blob. -/
theorem get_object_error_spec_witness :
    slookup (objPath ("abcdef".data)) [(objPath ("abcdef".data), frameObj blobT ("z".data))]
        = some (frameObj blobT ("z".data))
    ∧ ((pyPartition (frameObj blobT ("z".data))).1 = blobT
        ∨ (pyPartition (frameObj blobT ("z".data))).1 = treeT
        ∨ (pyPartition (frameObj blobT ("z".data))).1 = commitT)
    ∧ get_object [(objPath ("abcdef".data), frameObj blobT ("z".data))] ("abcdef".data)
        = .ok (pyPartition (frameObj blobT ("z".data))).2.2 :=
  ⟨rfl, Or.inl (by decide),
    (((get_object_error_spec [(objPath ("abcdef".data), frameObj blobT ("z".data))]
        ("abcdef".data)).2 (frameObj blobT ("z".data)) rfl).2 (Or.inl (by decide)))⟩

/-- Python whitespace characters stripped by `str.strip()` (ASCII range). -/
def isSpaceChar (c : Char) : Bool :=
  c = ' ' || c = '\t' || c = '\n' || c = '\r' || c = Char.ofNat 11 || c = Char.ofNat 12

/-- Python `str.strip()`: drop whitespace from both ends. -/
def pyStrip (l : List Char) : List Char :=
  ((l.dropWhile isSpaceChar).reverse.dropWhile isSpaceChar).reverse

/-- Python `str.splitlines()` restricted to newline boundaries (the payloads
in scope use only `\n`): split on each newline, no trailing empty piece. -/
def splitlines : List Char → List (List Char)
  | [] => []
  | c :: cs =>
    if c = '\n' then [] :: splitlines cs
    else
      match splitlines cs with
      | [] => [[c]]
      | l :: ls => (c :: l) :: ls

/-- Python `str.split(" ")` without maxsplit: all pieces, keeping empties. -/
def splitSp : List Char → List (List Char)
  | [] => [[]]
  | c :: cs =>
    if c = ' ' then [] :: splitSp cs
    else
      match splitSp cs with
      | [] => [[c]]
      | l :: ls => (c :: l) :: ls

/-- Python `entry.split(" ", 2)` followed by unpacking into three names:
`none` models the ValueError raised when fewer than three pieces result. -/
def pySplit2 (l : List Char) : Option (List Char × List Char × List Char) :=
  match splitSp l with
  | a :: b :: c :: rest => some (a, b, List.intercalate (" ".data) (c :: rest))
  | _ => none

/-- Iterating an open text file yields its lines, each keeping its `\n`. -/
def fileLines : List Char → List (List Char)
  | [] => []
  | c :: cs =>
    if c = '\n' then [c] :: fileLines cs
    else
      match fileLines cs with
      | [] => [[c]]
      | l :: ls => (c :: l) :: ls

/-- The pattern list read from a `.gitignore` file (objects.py lines 203-206):
each stripped line that is non-blank and whose raw text does not start with
`#`. -/
def ignorePatterns (content : List Char) : List (List Char) :=
  (fileLines content).filterMap
    (fun line =>
      if pyStrip line ≠ [] ∧ line.head? ≠ some '#' then some (pyStrip line) else none)

/-- A directory listing in scan order: each child is a regular file with its
content or a subdirectory with its own listing (symlinks and other special
entries are skipped by the code and are not modelled). -/
inductive FSTree where
  | nilL : FSTree
  | consFile (name content : List Char) (rest : FSTree) : FSTree
  | consDir (name : List Char) (children rest : FSTree) : FSTree
  deriving DecidableEq

/-- The `.gitignore` file in a directory listing, if a regular file by that
name exists (`os.path.exists` + `open` in objects.py lines 201-203). -/
def findGitignore : FSTree → Option (List Char)
  | .nilL => none
  | .consFile n c rest => if n = ".gitignore".data then some c else findGitignore rest
  | .consDir _ _ rest => findGitignore rest

/-- Models `is_ignored(path)` (objects.py lines 197-210) for `path` equal to
a directory entry: the basename of `dir/name` is `name`, and the `.gitignore`
consulted is the one inside `dir`, i.e. among the entry's siblings. The
external `pathlib.Path(path).match(pattern)` glob test is abstracted as the
parameter `pm` applied to the entry name and the pattern. -/
def is_ignored (pm : List Char → List Char → Bool) (siblings : FSTree)
    (name : List Char) : Bool :=
  if name = ".pygit".data then true
  else
    match findGitignore siblings with
    | none => false
    | some content => (ignorePatterns content).any (fun pat => pm name pat)

/-- Serialization in `Tree.store` (objects.py lines 101-103): the entries are
rendered as `f"{type_} {hash_id} {name}"` and joined with `""` — no newline
or any other separator between consecutive entries. -/
def tree_serialize : List (List Char × List Char × List Char) → List Char
  | [] => []
  | (t, h, n) :: rest => t ++ ' ' :: (h ++ ' ' :: (n ++ tree_serialize rest))

/-- Models `Tree.store` (objects.py lines 98-104): serialize the entries and
pass the result to `hash_object`. The serialized payload is a Python str, so
`hash_object` raises TypeError on every call — no tree object is ever stored
by the source. -/
def tree_store (σ : Store) (entries : List (List Char × List Char × List Char)) :
    Except PyErr (List Char × Store) :=
  hash_object_py σ (.str (tree_serialize entries)) treeT

/-- Models `Tree.write_tree` (objects.py lines 79-96) over the listing `cur`
of a directory whose full listing is `all` (needed because `is_ignored` looks
for `.gitignore` next to the entry): regular files are skipped when ignored
and otherwise stored as blobs (`f.read()` is bytes, so that call succeeds);
for a subdirectory the recursion reaches `subtree.store()`, which raises
TypeError, aborting the whole walk. Entries accumulate in scan order. -/
def write_tree (pm : List Char → List Char → Bool) (σ : Store) (all : FSTree) :
    FSTree → Except PyErr (Store × List (List Char × List Char × List Char))
  | .nilL => .ok (σ, [])
  | .consFile n c rest =>
    if is_ignored pm all n then write_tree pm σ all rest
    else
      match hash_object_py σ (.bytes c) blobT with
      | .error e => .error e
      | .ok hb =>
        match write_tree pm hb.2 all rest with
        | .error e => .error e
        | .ok r => .ok (r.1, (blobT, hb.1, n) :: r.2)
  | .consDir n kids rest =>
    match write_tree pm σ kids kids with
    | .error e => .error e
    | .ok sub =>
      match tree_store sub.1 sub.2 with
      | .error e => .error e
      | .ok st =>
        match write_tree pm st.2 all rest with
        | .error e => .error e
        | .ok r => .ok (r.1, (treeT, st.1, n) :: r.2)

/-- `Tree.build` as exercised by the CLI: `write_tree` over the directory
followed by `store`. The final `store` call passes a str payload, so no call
ever returns a digest: the TypeError from `hash_object` propagates. -/
def tree_build (pm : List Char → List Char → Bool) (σ : Store) (fs : FSTree) :
    Except PyErr (List Char × Store) :=
  match write_tree pm σ fs fs with
  | .error e => .error e
  | .ok r => tree_store r.1 r.2

/-- The parsing loop of `Tree._iter_tree` (objects.py lines 127-129): decode,
split on line boundaries, and split each line on the first two spaces into
an (entry type, digest, name) triple. -/
def parse_tree_entries (data : List Char) :
    Except PyErr (List (List Char × List Char × List Char)) :=
  match (splitlines data).mapM pySplit2 with
  | some ts => .ok ts
  | none => .error .valueError

/-- Models `Tree._iter_tree` (objects.py lines 122-129): a falsy digest
(`None` or the empty string) yields no entries without touching the store;
otherwise the object is fetched and parsed. -/
def _iter_tree (σ : Store) (hash_id : Option (List Char)) :
    Except PyErr (List (List Char × List Char × List Char)) :=
  match hash_id with
  | none => .ok []
  | some s =>
    if s = [] then .ok []
    else
      match get_object σ s with
      | .error e => .error e
      | .ok data => parse_tree_entries data

/-- Python dict assignment `result[path] = hash_id`: overwrite in place or
append, preserving insertion order. -/
def dinsert (k v : List Char) : List (List Char × List Char) → List (List Char × List Char)
  | [] => [(k, v)]
  | (k', v') :: rest => if k' = k then (k, v) :: rest else (k', v') :: dinsert k v rest

/-- Python `result.update(sub)`. -/
def dupdate (d other : List (List Char × List Char)) : List (List Char × List Char) :=
  other.foldl (fun acc e => dinsert e.1 e.2 acc) d

/-- Dictionary lookup on the path-to-digest mapping. -/
def lookupD (k : List Char) : List (List Char × List Char) → Option (List Char)
  | [] => none
  | (k', v) :: rest => if k' = k then some v else lookupD k rest

/-- Models `Tree.get_tree` (objects.py lines 106-120): flatten a stored tree
into a path-to-digest dictionary, asserting that no parsed name contains `/`
or equals `.`/`..`, recursing into tree entries with `path + "/"` as base and
failing on unknown entry types. The `Nat` argument is fuel standing for the
interpreter's recursion limit; the code recurses once per directory level. -/
def get_tree : Nat → Store → Option (List Char) → List Char →
    Except PyErr (List (List Char × List Char))
  | 0, _, _, _ => .error .recursionLimit
  | fuel+1, σ, hash_id, base =>
    match _iter_tree σ hash_id with
    | .error e => .error e
    | .ok ts =>
      ts.foldl
        (fun acc ent =>
          match acc with
          | .error e => .error e
          | .ok result =>
            if '/' ∈ ent.2.2 then .error .assertionFailed
            else if ent.2.2 = "..".data ∨ ent.2.2 = ".".data then .error .assertionFailed
            else if ent.1 = blobT then .ok (dinsert (base ++ ent.2.2) ent.2.1 result)
            else if ent.1 = treeT then
              match get_tree fuel σ (some ent.2.1) (base ++ ent.2.2 ++ "/".data) with
              | .error e => .error e
              | .ok sub => .ok (dupdate result sub)
            else .error .valueError)
        (.ok [])

/-- `os.path.dirname` on a relative path: everything before the last `/`,
the empty string when the path has no `/`. -/
def pyDirname (p : List Char) : List Char :=
  ((p.reverse.dropWhile (fun c => c ≠ '/')).drop 1).reverse

/-- Models the write phase of `Tree.read_tree` (objects.py lines 131-137):
flatten the tree, then for each entry run
`os.makedirs(os.path.dirname(path), exist_ok=True)` and write the blob's
bytes at the relative path. For a top-level path the dirname is the empty
string and `os.makedirs("")` raises FileNotFoundError before the write; for
a path with a directory part the creation succeeds. The result is the list
of (path, bytes) writes in order; the `_empty_directory` cleanup pass only
deletes working-tree files and is not modelled. -/
def read_tree (fuel : Nat) (σ : Store) (hash_id : Option (List Char)) :
    Except PyErr (List (List Char × List Char)) :=
  match get_tree fuel σ hash_id [] with
  | .error e => .error e
  | .ok m =>
    m.mapM (fun kv =>
      if pyDirname kv.1 = [] then .error .fileNotFound
      else
        match get_object σ kv.2 with
        | .error e => .error e
        | .ok data => .ok (kv.1, data))

/-- A directory listing with its ignored regular-file children removed
(directory children are kept regardless). -/
def dropIgnoredFiles (pm : List Char → List Char → Bool) (all : FSTree) :
    FSTree → FSTree
  | .nilL => .nilL
  | .consFile n c rest =>
    if is_ignored pm all n then dropIgnoredFiles pm all rest
    else .consFile n c (dropIgnoredFiles pm all rest)
  | .consDir n kids rest => .consDir n kids (dropIgnoredFiles pm all rest)

/-- C9: flattening with an absent (`None`) or empty-string digest yields the
empty mapping for every store — the store is never consulted and no
ObjectNotFound is raised; the empty digest acts as an empty tree. -/
theorem get_tree_falsy_digest (fuel : Nat) (σ : Store) (base : List Char) :
    get_tree (fuel + 1) σ none base = .ok []
    ∧ get_tree (fuel + 1) σ (some []) base = .ok [] :=
  ⟨rfl, rfl⟩

/-- Evidence for C8: over an empty directory `write_tree` does produce the
empty entry list, but `Tree.store` then passes the str `""` to `hash_object`,
which raises TypeError — the build never yields a digest, for any starting
store. -/
theorem tree_build_empty_dir_raises (pm : List Char → List Char → Bool) (σ : Store) :
    write_tree pm σ FSTree.nilL FSTree.nilL = .ok (σ, [])
    ∧ tree_build pm σ FSTree.nilL = .error .typeError :=
  ⟨rfl, rfl⟩

/-- Counterexample to C3: `write_tree` consults `is_ignored` only for regular
files. A child directory named `.pygit` is ignored by the predicate, yet it
is not skipped: `write_tree` recurses into it and aborts with the TypeError
of `subtree.store()`, instead of producing the same result as the listing
without that child (which succeeds with no entries). -/
theorem write_tree_pygit_dir_not_skipped :
    is_ignored (fun _ _ => false) (FSTree.consDir (".pygit".data) FSTree.nilL FSTree.nilL)
        (".pygit".data) = true
    ∧ write_tree (fun _ _ => false) []
        (FSTree.consDir (".pygit".data) FSTree.nilL FSTree.nilL)
        (FSTree.consDir (".pygit".data) FSTree.nilL FSTree.nilL) = .error .typeError
    ∧ write_tree (fun _ _ => false) []
        (FSTree.consDir (".pygit".data) FSTree.nilL FSTree.nilL) FSTree.nilL
      = .ok ([], []) :=
  ⟨rfl, rfl, rfl⟩

/-- C3 (amended): ignored regular-file children contribute nothing — deleting
every file child with `is_ignored` true from the listing leaves the outcome
of `write_tree` (the resulting store and entry list, or the error) unchanged.
Directory children are never consulted against the predicate: the walk
recurses into them (including `.pygit`) and fails at the subtree store. -/
theorem write_tree_filters_only_files (pm : List Char → List Char → Bool)
    (σ : Store) (all cur : FSTree) :
    write_tree pm σ all cur = write_tree pm σ all (dropIgnoredFiles pm all cur) := by
  induction cur generalizing σ with
  | nilL => rfl
  | consFile n c rest ih =>
    by_cases hig : is_ignored pm all n = true
    · simp [write_tree, dropIgnoredFiles, hash_object_py, hig, ih]
    · simp [write_tree, dropIgnoredFiles, hash_object_py, hig, ih]
  | consDir n kids rest ih1 ih2 =>
    simp [write_tree, dropIgnoredFiles, ih2]

/-- Evidence for C2: `Tree.store` joins entries with no newline, so a
two-entry tree serializes to a single line which `_iter_tree`'s parsing turns
into one bogus triple instead of the two stored triples. -/
theorem tree_store_not_newline_terminated :
    (parse_tree_entries (tree_serialize
        [(blobT, "11".data, "a".data), (blobT, "22".data, "b".data)])).toOption
      = some [(blobT, "11".data, "ablob 22 b".data)]
    ∧ (some [(blobT, "11".data, "ablob 22 b".data)]
        ≠ some [(blobT, "11".data, "a".data), (blobT, "22".data, "b".data)]) :=
  ⟨rfl, by decide⟩

/-- Evidence for C1: the round-trip never happens. Building a tree over a
directory with one non-ignored file `a` → "x" raises TypeError at the final
`Tree.store` (str payload into `hash_object`), so `Tree.build` never returns
a digest; and even for a well-formed tree object planted directly in the
store, whose single entry is the top-level file `a`, `read_tree` raises
FileNotFoundError at `os.makedirs("")` before writing any file. -/
theorem tree_roundtrip_impossible :
    tree_build (fun _ _ => false) []
        (FSTree.consFile ("a".data) ("x".data) FSTree.nilL) = .error .typeError
    ∧ (let hb := get_hash (frameObj blobT ("x".data));
       let payload := "blob ".data ++ hb ++ " a".data;
       let dt := get_hash (frameObj treeT payload);
       read_tree 2
         [(objPath dt, frameObj treeT payload), (objPath hb, frameObj blobT ("x".data))]
         (some dt))
      = .error .fileNotFound :=
  ⟨rfl, rfl⟩

/-- Models `Commit.get_HEAD` (objects.py lines 189-194): when the HEAD file
exists, its content is read and stripped of surrounding whitespace; when it
does not exist, Python implicitly returns None. -/
def get_HEAD (headFile : Option (List Char)) : Option (List Char) :=
  match headFile with
  | some content => some (pyStrip content)
  | none => none

/-- The commit payload built by `Commit.commit` (objects.py lines 170-179):
the triple-quoted f-string (with its literal newlines and eight-space
indentation) over the environment-derived author email, timestamp and
timezone, followed by a `parent:` line exactly when the HEAD value read is
truthy (present and non-empty after stripping). -/
def commit_payload (head : Option (List Char)) (email ts tz msg tree : List Char) :
    List Char :=
  let base := "\n        author: PyGit <".data ++ email ++ ">\n        timestamp: ".data
      ++ ts ++ "\n        timezone: ".data ++ tz ++ "\n        message: ".data ++ msg
      ++ "\n        tree: ".data ++ tree ++ "\n        ".data
  match head with
  | some h => if h.isEmpty then base else base ++ "parent: ".data ++ h ++ "\n".data
  | none => base

/-- Models `Commit.commit` (objects.py lines 168-182): build the payload,
read HEAD, pass the payload to `hash_object`, and only on success overwrite
HEAD with the returned digest. The payload is a Python str, so `hash_object`
raises TypeError on every call, before `set_HEAD` is reached: nothing is
stored and HEAD is never written. State is (object store, HEAD file content
or None); a successful result would be (new digest, new store, new HEAD). -/
def commit (σ : Store) (headFile : Option (List Char))
    (email ts tz msg tree : List Char) :
    Except PyErr (List Char × Store × Option (List Char)) :=
  let p := commit_payload (get_HEAD headFile) email ts tz msg tree
  match hash_object_py σ (.str p) commitT with
  | .error e => .error e
  | .ok r => .ok (r.1, r.2, some r.1)

lemma pyStrip_all_space {l : List Char} (h : l.all isSpaceChar = true) :
    pyStrip l = [] := by
  have h1 : l.dropWhile isSpaceChar = [] := by
    rw [List.dropWhile_eq_nil_iff]
    intro x hx
    exact List.all_eq_true.mp h x hx
  simp [pyStrip, h1]

lemma dropWhile_of_none (p : Char → Bool) (l : List Char)
    (h : ∀ c ∈ l, p c = false) : l.dropWhile p = l := by
  cases l with
  | nil => rfl
  | cons c cs => simp [List.dropWhile_cons, h c (List.mem_cons_self c cs)]

lemma pyStrip_of_no_space {l : List Char} (h : ∀ c ∈ l, isSpaceChar c = false) :
    pyStrip l = l := by
  have h1 : l.dropWhile isSpaceChar = l := dropWhile_of_none _ _ h
  have h2 : ∀ c ∈ l.reverse, isSpaceChar c = false := fun c hc =>
    h c (List.mem_reverse.mp hc)
  have h3 : l.reverse.dropWhile isSpaceChar = l.reverse := dropWhile_of_none _ _ h2
  simp [pyStrip, h1, h3]

lemma mem_encodeChars : ∀ (l : List Char) (c : Char), c ∈ encodeChars l →
    ∃ m, m < 16 ∧ c = hexDigit m
  | [], c, h => by simp [encodeChars] at h
  | d :: ds, c, h => by
    have h' : c ∈ toHex6 d.toNat ++ encodeChars ds := h
    rcases List.mem_append.mp h' with h6 | h6
    · simp only [toHex6, List.mem_cons, List.not_mem_nil, or_false] at h6
      rcases h6 with h6 | h6 | h6 | h6 | h6 | h6 <;>
        exact ⟨_, Nat.mod_lt _ (by norm_num), h6⟩
    · exact mem_encodeChars ds c h6

lemma hexDigit_not_space : ∀ m < 16, isSpaceChar (hexDigit m) = false := by decide

lemma pyStrip_get_hash (data : List Char) : pyStrip (get_hash data) = get_hash data := by
  refine pyStrip_of_no_space ?_
  intro c hc
  obtain ⟨m, hm, rfl⟩ := mem_encodeChars data c hc
  exact hexDigit_not_space m hm

lemma get_hash_frame_ne_nil (t p : List Char) : get_hash (frameObj t p) ≠ [] := by
  cases t <;> simp [frameObj, get_hash, encodeChars, toHex6]

lemma isEmpty_false_of_ne {l : List Char} (h : l ≠ []) : l.isEmpty = false := by
  cases l with
  | nil => exact absurd rfl h
  | cons a l => rfl

lemma commit_payload_some_ne {h : List Char} (hne : h.isEmpty = false)
    (email ts tz msg tree : List Char) :
    commit_payload (some h) email ts tz msg tree
      = commit_payload none email ts tz msg tree ++ "parent: ".data ++ h ++ "\n".data := by
  simp [commit_payload, hne]

/-- Evidence for C7: `Commit.commit` never creates a commit. For every
store, HEAD state and argument values, the call raises TypeError inside
`hash_object` (str payload) before `set_HEAD` runs, so no commit object is
ever stored, no digest is returned, and HEAD is never overwritten — two
commits in sequence cannot be created, let alone chained. -/
theorem commit_never_succeeds (σ : Store) (headFile : Option (List Char))
    (email ts tz msg tree : List Char) :
    commit σ headFile email ts tz msg tree = .error .typeError :=
  rfl

/-- Evidence for C10: a HEAD file holding only whitespace reads back as the
empty string, and the payload `commit` constructs before crashing takes the
no-parent branch, identical to the fresh-repository payload; the call itself
then raises TypeError in both the whitespace-HEAD and the no-HEAD case, so
no commit is created in either. -/
theorem whitespace_head_treated_absent (σ : Store) (ws e t z m tr : List Char)
    (h : ws.all isSpaceChar = true) :
    get_HEAD (some ws) = some []
    ∧ commit_payload (get_HEAD (some ws)) e t z m tr = commit_payload none e t z m tr
    ∧ commit σ (some ws) e t z m tr = .error .typeError
    ∧ commit σ none e t z m tr = .error .typeError := by
  have hs : pyStrip ws = [] := pyStrip_all_space h
  have h1 : get_HEAD (some ws) = some [] := by simp [get_HEAD, hs]
  have h2 : commit_payload (get_HEAD (some ws)) e t z m tr
      = commit_payload none e t z m tr := by
    rw [h1]
    simp [commit_payload]
  exact ⟨h1, h2, rfl, rfl⟩

/-- Witness for C10 with a HEAD file containing a space, a newline and a tab. -/
theorem whitespace_head_treated_absent_witness :
    (" \n\t".data).all isSpaceChar = true
    ∧ (get_HEAD (some (" \n\t".data)) = some []
      ∧ commit_payload (get_HEAD (some (" \n\t".data))) ("e".data) ("1".data)
            ("z".data) ("m".data) ("t".data)
          = commit_payload none ("e".data) ("1".data) ("z".data) ("m".data) ("t".data)
      ∧ commit [] (some (" \n\t".data)) ("e".data) ("1".data) ("z".data) ("m".data) ("t".data)
          = .error .typeError
      ∧ commit [] none ("e".data) ("1".data) ("z".data) ("m".data) ("t".data)
          = .error .typeError) :=
  ⟨by decide, whitespace_head_treated_absent [] (" \n\t".data) ("e".data) ("1".data)
    ("z".data) ("m".data) ("t".data) (by decide)⟩
